import Mathlib

/-!
# Verification of the socket-to-api bridge

A shallow embedding, in Lean 4, of the core components of the
`socket-to-api` Go repository, with theorems settling the specified
properties of each component:

* the wire-protocol codec (`pkg/protocol/protocol.go`),
* the connection registry (`ConnectionManager`),
* the work repository (`Repository`, the SQL layer over the staging table),
* the upstream API client retry loop (`Client.SendRequest`),
* the job processor pipeline (`Processor.Process`),
* the worker pool submission path (`Pool.Submit` / `Pool.Stop`).

Bytes are modelled as `Nat` values (< 256 where produced by the code),
byte buffers as `List Nat`, timestamps as abstract `Nat` instants, and
the outcomes of external effects (database writes, HTTPS calls, socket
writes) as explicit oracle parameters, so that every definition is
executable and every control path of the Go source is represented.
-/

namespace SocketToApi

/-! ## Wire protocol codec (`pkg/protocol/protocol.go`) -/

/-- `HeaderSize = 8` from `protocol.go`: header is
`[Version:1][Type:1][Length:4][Reserved:2]`. -/
def HeaderSize : Nat := 8

/-- `MaxMessageSize = 10 * 1024 * 1024` from `protocol.go` (10 MiB). -/
def MaxMessageSize : Nat := 10 * 1024 * 1024

/-- `ProtocolVersion = 0x01` from `protocol.go`. -/
def ProtocolVersion : Nat := 1

/-- The five message-type byte values from `protocol.go`. -/
def MessageTypeRequest : Nat := 1

def MessageTypeResponse : Nat := 2

def MessageTypeError : Nat := 3

def MessageTypePing : Nat := 4

def MessageTypePong : Nat := 5

/-- A decoded protocol message, mirroring `protocol.Message`
(`Version`, `Type`, `Length`, `Data`). -/
structure Message where
  version : Nat
  msgType : Nat
  length : Nat
  data : List Nat
  deriving Repr, DecidableEq

/-- Big-endian 4-byte encoding of a 32-bit value, as
`binary.BigEndian.PutUint32` writes it (higher bits beyond 32 are
discarded, as by the Go `uint32` conversion). -/
def putUint32BE (n : Nat) : List Nat :=
  [n / 16777216 % 256, n / 65536 % 256, n / 256 % 256, n % 256]

/-- Big-endian read of 4 bytes, as `binary.BigEndian.Uint32`. -/
def getUint32BE (b0 b1 b2 b3 : Nat) : Nat :=
  b0 * 16777216 + b1 * 65536 + b2 * 256 + b3

/-- `protocol.EncodeMessage`: reject payloads longer than
`MaxMessageSize`, else emit the 8-byte header followed by the payload.
`none` models the Go error return. -/
def EncodeMessage (msgType : Nat) (data : List Nat) : Option (List Nat) :=
  if data.length > MaxMessageSize then
    none
  else
    some (ProtocolVersion :: msgType :: putUint32BE data.length ++ [0, 0] ++ data)

/-- The failure modes of `protocol.DecodeMessage`, one per `return nil, err`
site: short header read, unsupported version byte, oversize length field,
short payload read. -/
inductive DecodeError where
  | shortHeader
  | unsupportedVersion (v : Nat)
  | oversize (len : Nat)
  | shortData
  deriving Repr, DecidableEq

/-- `protocol.DecodeMessage` over a byte stream: read exactly 8 header
bytes (`io.ReadFull`), check the version byte, check the length field
against `MaxMessageSize` before touching the payload, then read exactly
`length` payload bytes.  Returns the message together with the unread
remainder of the stream, so that "reads exactly N bytes" is expressible. -/
def DecodeMessage (input : List Nat) : Except DecodeError (Message × List Nat) :=
  match input with
  | b0 :: b1 :: b2 :: b3 :: b4 :: b5 :: _ :: _ :: rest =>
    let len := getUint32BE b2 b3 b4 b5
    if b0 ≠ ProtocolVersion then
      .error (.unsupportedVersion b0)
    else if len > MaxMessageSize then
      .error (.oversize len)
    else if rest.length < len then
      .error .shortData
    else
      .ok ({ version := b0, msgType := b1, length := len, data := rest.take len },
           rest.drop len)
  | _ => .error .shortHeader

/-! ## Connection registry (`ConnectionManager`) -/

/-- A client socket handle.  `writeOk` is the behaviour of the underlying
transport: whether `conn.Write` succeeds.  `sid` is an identity used to
state which socket was closed. -/
structure Socket where
  sid : Nat
  writeOk : Bool
  deriving Repr, DecidableEq

/-- `models.ConnectionInfo`: per-connection statistics kept by the
registry. -/
structure ConnectionInfo where
  port : Nat
  remoteAddr : String
  connectedAt : Nat
  lastActive : Nat
  messagesSent : Nat
  messagesReceived : Nat
  deriving Repr, DecidableEq

/-- The state of `server.ConnectionManager`: the `port → net.Conn` map and
the `port → *ConnectionInfo` map, both modelled as association lists, plus
a ghost record of the sockets on which `Close()` has been called. -/
structure ConnectionManager where
  connections : List (Nat × Socket)
  connInfo : List (Nat × ConnectionInfo)
  closedSockets : List Socket
  deriving Repr, DecidableEq

/-- Go `delete(m, k)` on an association list. -/
def removeKey {α : Type} (l : List (Nat × α)) (k : Nat) : List (Nat × α) :=
  l.filter (fun p => p.1 != k)

/-- `ConnectionManager.Register`: fail on a duplicate port without touching
the existing entry, else insert the socket and a fresh info record. -/
def Register (cm : ConnectionManager) (port : Nat) (conn : Socket)
    (remoteAddr : String) (now : Nat) : Option ConnectionManager :=
  match cm.connections.lookup port with
  | some _ => none
  | none =>
    some { cm with
      connections := (port, conn) :: cm.connections,
      connInfo := (port, { port := port, remoteAddr := remoteAddr,
                           connectedAt := now, lastActive := now,
                           messagesSent := 0, messagesReceived := 0 }) :: cm.connInfo }

/-- `ConnectionManager.Unregister`: idempotent; if the port is present,
close its socket and remove both map entries. -/
def Unregister (cm : ConnectionManager) (port : Nat) : ConnectionManager :=
  match cm.connections.lookup port with
  | some conn =>
    { cm with
      connections := removeKey cm.connections port,
      connInfo := removeKey cm.connInfo port,
      closedSockets := conn :: cm.closedSockets }
  | none => cm

/-- `ConnectionManager.GetConnection`: the non-mutating lookup. -/
def GetConnection (cm : ConnectionManager) (port : Nat) : Option Socket :=
  cm.connections.lookup port

/-- The three outcomes of `ConnectionManager.SendData`. -/
inductive SendResult where
  | ok
  | missing
  | writeFailed
  deriving Repr, DecidableEq

/-- The stats update performed by `SendData` before the write:
`info.MessagesSent++; info.LastActive = time.Now()` for the entry of
`port`, the connections map untouched. -/
def touchSent (cm : ConnectionManager) (port now : Nat) : ConnectionManager :=
  { cm with
    connInfo := cm.connInfo.map (fun p =>
      if p.1 = port then
        (p.1, { p.2 with messagesSent := p.2.messagesSent + 1, lastActive := now })
      else p) }

/-- `ConnectionManager.SendData`: look the port up (`missing` if absent),
bump `MessagesSent` / `LastActive`, then perform the write; on a write
error, `Unregister` the port (closing the socket and removing the entry)
before returning the failure. -/
def SendData (cm : ConnectionManager) (port : Nat) (now : Nat) :
    SendResult × ConnectionManager :=
  match GetConnection cm port with
  | none => (.missing, cm)
  | some conn =>
    let cm1 := touchSent cm port now
    if conn.writeOk then
      (.ok, cm1)
    else
      (.writeFailed, Unregister cm1 port)

/-- A concrete registry holding a single socket, on port 9999, whose
transport write fails. -/
def cmFailingWrite : ConnectionManager :=
  { connections := [(9999, { sid := 1, writeOk := false })],
    connInfo := [(9999, { port := 9999, remoteAddr := "10.0.0.1:9999",
                          connectedAt := 0, lastActive := 0,
                          messagesSent := 0, messagesReceived := 0 })],
    closedSockets := [] }

/-! ## Work repository (`database.Repository` over the staging table) -/

/-- `models.RequestStatus`: the five status values of a staged row. -/
inductive RequestStatus where
  | pending
  | sending
  | sent
  | failed
  | complete
  deriving Repr, DecidableEq

/-- `models.UnsendData`: one staged row of the `unsend_data` table. -/
structure UnsendData where
  id : Int
  clientPort : Int
  binaryData : List Nat
  status : RequestStatus
  createdAt : Nat
  updatedAt : Nat
  retryCount : Int
  lastError : Option String
  deriving Repr, DecidableEq

/-- The row predicate of the `WHERE` clause of
`Repository.FetchPendingRequests`: the query binds only
`status = :1` with `:1 = models.StatusPending`; no other column appears
in the predicate. -/
def eligibleForClaim (r : UnsendData) : Bool :=
  r.status == .pending

/-- Modelled from the spec: the eligible-row predicate the specification
states for `claim_pending`, namely
`status = 'pending' AND retry_count < MAX_RETRIES`; written here for
comparison with `eligibleForClaim`, the predicate the source query
actually uses. -/
def specEligibleForClaim (maxRetries : Int) (r : UnsendData) : Bool :=
  r.status == .pending && r.retryCount < maxRetries

/-- `api.max_retries` default from `config.go` (`MaxRetries: 3`). -/
def maxRetriesDefault : Int := 3

/-- One step of the `ORDER BY created_at ASC` sort. -/
def insertByCreated (r : UnsendData) : List UnsendData → List UnsendData
  | [] => [r]
  | x :: xs =>
    if r.createdAt ≤ x.createdAt then r :: x :: xs else x :: insertByCreated r xs

/-- `ORDER BY created_at ASC` as an insertion sort. -/
def sortByCreated : List UnsendData → List UnsendData
  | [] => []
  | x :: xs => insertByCreated x (sortByCreated xs)

/-- `Repository.FetchPendingRequests`: the rows of the staging table
satisfying the `WHERE` predicate, in `created_at` order, truncated to
`FETCH FIRST limit ROWS ONLY`.  (Row locking — `FOR UPDATE SKIP LOCKED` —
excludes rows held by concurrent transactions and is outside this
single-transaction model; the claim under verification concerns the
`WHERE` predicate.) -/
def FetchPendingRequests (table : List UnsendData) (limit : Nat) : List UnsendData :=
  ((sortByCreated table).filter eligibleForClaim).take limit

/-- `Repository.UpdateRequestStatus` restricted to the targeted row: the
`UPDATE` statement writes exactly the columns `status`, `updated_at` and
`last_error` (`SET status = :1, updated_at = :2, last_error = :3`). -/
def updateRequestStatusRow (r : UnsendData) (status : RequestStatus)
    (errorMsg : Option String) (now : Nat) : UnsendData :=
  { r with status := status, updatedAt := now, lastError := errorMsg }

/-- `Repository.UpdateRequestStatus` on the whole table
(`WHERE id = :4`). -/
def UpdateRequestStatus (table : List UnsendData) (requestID : Int)
    (status : RequestStatus) (errorMsg : Option String) (now : Nat) : List UnsendData :=
  table.map (fun r => if r.id = requestID then updateRequestStatusRow r status errorMsg now else r)

/-- `Repository.MarkAsSending`: `UpdateRequestStatus(id, StatusSending, nil)`. -/
def MarkAsSending (table : List UnsendData) (requestID : Int) (now : Nat) : List UnsendData :=
  UpdateRequestStatus table requestID .sending none now

/-- `Repository.MarkAsComplete`: `UpdateRequestStatus(id, StatusComplete, nil)`. -/
def MarkAsComplete (table : List UnsendData) (requestID : Int) (now : Nat) : List UnsendData :=
  UpdateRequestStatus table requestID .complete none now

/-- `Repository.MarkAsFailed`: `UpdateRequestStatus(id, StatusFailed, &errorMsg)`. -/
def MarkAsFailed (table : List UnsendData) (requestID : Int) (errorMsg : String)
    (now : Nat) : List UnsendData :=
  UpdateRequestStatus table requestID .failed (some errorMsg) now

/-- `Repository.IncrementRetryCount`:
`SET retry_count = retry_count + 1, updated_at = :1 WHERE id = :2`. -/
def IncrementRetryCount (table : List UnsendData) (requestID : Int) (now : Nat) :
    List UnsendData :=
  table.map (fun r =>
    if r.id = requestID then { r with retryCount := r.retryCount + 1, updatedAt := now } else r)

/-- A staged row that is still `pending` while its `retry_count` has
reached the default ceiling of 3. -/
def poisonRow : UnsendData :=
  { id := 7, clientPort := 9999, binaryData := [1, 2, 3], status := .pending,
    createdAt := 0, updatedAt := 0, retryCount := 3, lastError := some "API request failed" }

/-! ## Upstream API client (`api.Client.SendRequest`) -/

/-- The observable behaviour of one `Client.SendRequest` call: how many
attempts were performed, the sequence of waits (`RetryDelay × attempt`)
that preceded them, and the returned value — `.ok` carries the response
code of the succeeding attempt, `.error (n, e)` the reported attempt
count and the error of the last attempt (Go wraps `lastErr` into
`"API request failed after n attempts"`). -/
structure SendOutcome where
  attemptsMade : Nat
  delays : List Nat
  result : Except (Nat × Nat) Nat
  deriving Repr

/-- The retry loop of `Client.SendRequest`, from a given attempt index:
`for attempt := 0; attempt <= MaxRetries; attempt++`, waiting
`RetryDelay * attempt` before every attempt but the first, returning on
the first success, and after the loop surfacing the last error together
with the attempt count `MaxRetries + 1`.  `oc` is the outcome of each
individual `sendRequestOnce` call (an upstream error code or a
response). -/
def sendRequestLoop (maxRetries retryDelay : Nat) (oc : Nat → Except Nat Nat)
    (attempt : Nat) (lastErr : Nat) : SendOutcome :=
  if maxRetries < attempt then
    { attemptsMade := 0, delays := [], result := .error (maxRetries + 1, lastErr) }
  else
    let ds := if attempt = 0 then [] else [retryDelay * attempt]
    match oc attempt with
    | .ok resp => { attemptsMade := 1, delays := ds, result := .ok resp }
    | .error e =>
      let rest := sendRequestLoop maxRetries retryDelay oc (attempt + 1) e
      { attemptsMade := rest.attemptsMade + 1, delays := ds ++ rest.delays,
        result := rest.result }
  termination_by maxRetries + 1 - attempt

/-- `Client.SendRequest`: the retry loop started at attempt 0. -/
def SendRequest (maxRetries retryDelay : Nat) (oc : Nat → Except Nat Nat) : SendOutcome :=
  sendRequestLoop maxRetries retryDelay oc 0 0

/-! ## Job processor (`worker.Processor.Process`) -/

/-- The success/failure of each effectful step of one `Process` run:
the five database writes (`MarkAsSending`, `InsertAPIResponse`,
`MarkAsComplete`, `DeleteProcessedRequest`, and the two writes of
`handleError`), the transformer steps, the upstream call (after the
client's internal retries) and the TCP delivery.  Pure control flow is
taken from the source; these bits abstract only whether each external
effect errors. -/
structure StepOutcomes where
  markSendingOk : Bool
  validateOk : Bool
  toApiOk : Bool
  apiSendOk : Bool
  validateRespOk : Bool
  insertResponseOk : Bool
  toBinaryOk : Bool
  sendClientOk : Bool
  markCompleteOk : Bool
  deleteOk : Bool
  markFailedOk : Bool
  incrementRetryOk : Bool
  deriving Repr, DecidableEq

/-- The database as the processor sees it: the staging table, the number
of response records inserted so far, and counters of the two
failure-path writes actually issued (`MarkAsFailed`,
`IncrementRetryCount`). -/
structure DbState where
  table : List UnsendData
  responseInserts : Nat
  markFailedAttempts : Nat
  incrementAttempts : Nat
  deriving Repr, DecidableEq

/-- `models.ProcessingResult` (the fields the claims speak about). -/
structure ProcessingResult where
  requestID : Int
  clientPort : Int
  success : Bool
  errMsg : Option String
  deriving Repr, DecidableEq

/-- `Processor.handleError`: mark the row failed with the error text,
then increment its retry count; a failure of either write is only
logged. -/
def handleError (o : StepOutcomes) (requestID : Int) (msg : String) (now : Nat)
    (s : DbState) : DbState :=
  let s1 := { s with
    markFailedAttempts := s.markFailedAttempts + 1,
    table := if o.markFailedOk then MarkAsFailed s.table requestID msg now else s.table }
  { s1 with
    incrementAttempts := s1.incrementAttempts + 1,
    table := if o.incrementRetryOk then IncrementRetryCount s1.table requestID now else s1.table }

/-- A failing step of `Process`: build the unsuccessful result and run
`handleError`. -/
def failWith (o : StepOutcomes) (req : UnsendData) (msg : String) (now : Nat)
    (s : DbState) : ProcessingResult × DbState :=
  ({ requestID := req.id, clientPort := req.clientPort, success := false,
     errMsg := some msg }, handleError o req.id msg now s)

/-- `Repository.DeleteProcessedRequest` on the table. -/
def DeleteProcessedRequest (table : List UnsendData) (requestID : Int) : List UnsendData :=
  table.filter (fun r => r.id != requestID)

/-- `Processor.Process`: the ten-step pipeline of `processor.go`.  Steps
1–5, 7 and 8 abort through `handleError` on failure; the step-6 response
insert and the step-9/step-10 cleanup writes are logged-and-swallowed;
on reaching the end the result is successful. -/
def Process (o : StepOutcomes) (req : UnsendData) (now : Nat) (s : DbState) :
    ProcessingResult × DbState :=
  if o.markSendingOk = false then
    failWith o req "failed to mark as sending" now s
  else
    let s1 := { s with table := MarkAsSending s.table req.id now }
    if o.validateOk = false then
      failWith o req "invalid binary data" now s1
    else if o.toApiOk = false then
      failWith o req "failed to convert to API request" now s1
    else if o.apiSendOk = false then
      failWith o req "API request failed" now s1
    else if o.validateRespOk = false then
      failWith o req "invalid API response" now s1
    else
      let s2 := if o.insertResponseOk then
          { s1 with responseInserts := s1.responseInserts + 1 } else s1
      if o.toBinaryOk = false then
        failWith o req "failed to convert response to binary" now s2
      else if o.sendClientOk = false then
        failWith o req "failed to send response to client" now s2
      else
        let s3 := if o.markCompleteOk then
            { s2 with table := MarkAsComplete s2.table req.id now } else s2
        let s4 := if o.deleteOk then
            { s3 with table := DeleteProcessedRequest s3.table req.id } else s3
        ({ requestID := req.id, clientPort := req.clientPort, success := true,
           errMsg := none }, s4)

/-- A staged row as the poller hands it to a worker. -/
def pendingRow : UnsendData :=
  { id := 42, clientPort := 54321, binaryData := [222, 173, 190, 239],
    status := .pending, createdAt := 0, updatedAt := 0, retryCount := 0,
    lastError := none }

/-- All steps succeed. -/
def allOk : StepOutcomes :=
  { markSendingOk := true, validateOk := true, toApiOk := true, apiSendOk := true,
    validateRespOk := true, insertResponseOk := true, toBinaryOk := true,
    sendClientOk := true, markCompleteOk := true, deleteOk := true,
    markFailedOk := true, incrementRetryOk := true }

/-! ## Worker pool (`worker.Pool`) -/

/-- The pool state relevant to `Submit` and `Stop`: the buffered jobs
channel (its queued contents and its capacity `QueueSize`, plus whether
`close(p.jobs)` has run) and whether the pool context has been
cancelled (`p.cancel()` — `ctx.Done()` closed). -/
structure PoolState where
  jobs : List Int
  queueCap : Nat
  jobsClosed : Bool
  cancelled : Bool
  deriving Repr, DecidableEq

/-- What one `Pool.Submit` call can do. -/
inductive SubmitOutcome where
  | enqueued
  | canceledErr
  | queueFullErr
  | panicked
  deriving Repr, DecidableEq

/-- Whether the `case p.jobs <- job` arm of the select can proceed: a
buffered send is ready when the buffer has room, and a send on a closed
channel is always ready — it proceeds and panics. -/
def sendCaseReady (p : PoolState) : Bool :=
  p.jobsClosed || decide (p.jobs.length < p.queueCap)

/-- Whether the `case <-p.ctx.Done()` arm can proceed. -/
def doneCaseReady (p : PoolState) : Bool :=
  p.cancelled

/-- `Pool.Submit` under Go select semantics: if no arm is ready the
`default` arm returns the queue-full error immediately; if exactly one
arm is ready it runs; if both are ready the runtime picks one —
`pickSend` models that nondeterministic choice.  The send arm enqueues
on an open channel and panics on a closed one. -/
def Submit (p : PoolState) (job : Int) (pickSend : Bool) : SubmitOutcome × PoolState :=
  let sendCase : SubmitOutcome × PoolState :=
    if p.jobsClosed then (.panicked, p)
    else (.enqueued, { p with jobs := p.jobs ++ [job] })
  if sendCaseReady p && doneCaseReady p then
    if pickSend then sendCase else (.canceledErr, p)
  else if sendCaseReady p then
    sendCase
  else if doneCaseReady p then
    (.canceledErr, p)
  else
    (.queueFullErr, p)

/-- `Pool.Stop`: `p.cancel()` then `close(p.jobs)` (worker draining and
`wg.Wait()` do not affect the submission-path state). -/
def Stop (p : PoolState) : PoolState :=
  { p with cancelled := true, jobsClosed := true }

/-- A running pool whose submission queue is full. -/
def fullPool : PoolState :=
  { jobs := [1, 2, 3], queueCap := 3, jobsClosed := false, cancelled := false }

/-- A one-row database as a worker sees it. -/
def dbDemo : DbState :=
  { table := [pendingRow], responseInserts := 0, markFailedAttempts := 0,
    incrementAttempts := 0 }

/-- Every step succeeds except the step-9 and step-10 cleanup writes. -/
def oCleanupFails : StepOutcomes :=
  { allOk with markCompleteOk := false, deleteOk := false }

/-- Step 2 (binary validation) fails; everything else would succeed. -/
def oValidateFails : StepOutcomes :=
  { allOk with validateOk := false }

/-- Step 4 (the upstream call, after the client's internal retries)
fails; everything else would succeed. -/
def oApiFails : StepOutcomes :=
  { allOk with apiSendOk := false }

/-! ## Theorems -/

/-- Reading back the four big-endian bytes of `n < 2^32` recovers `n`. -/
theorem getUint32BE_putUint32BE (n : Nat) (h : n < 4294967296) :
    getUint32BE (n / 16777216 % 256) (n / 65536 % 256) (n / 256 % 256) (n % 256) = n := by
  simp only [getUint32BE]
  omega

/-- C6: frame round-trip.  For every message type and every payload `p` with
`|p| ≤ MAX_FRAME` (10 MiB), `EncodeMessage` succeeds and `DecodeMessage`
applied to its output returns a message with the same type and the same
payload (and consumes the whole encoding). -/
theorem frame_roundtrip (t : Nat) (p : List Nat) (h : p.length ≤ MaxMessageSize) :
    ∃ e, EncodeMessage t p = some e ∧
      DecodeMessage e = .ok ({ version := ProtocolVersion, msgType := t,
                               length := p.length, data := p }, []) := by
  refine ⟨ProtocolVersion :: t :: putUint32BE p.length ++ [0, 0] ++ p, ?_, ?_⟩
  · simp [EncodeMessage, Nat.not_lt.mpr h]
  · have hlen : getUint32BE (p.length / 16777216 % 256) (p.length / 65536 % 256)
        (p.length / 256 % 256) (p.length % 256) = p.length := by
      refine getUint32BE_putUint32BE p.length ?_
      have : MaxMessageSize < 4294967296 := by decide
      omega
    simp only [putUint32BE, List.cons_append, List.nil_append, DecodeMessage, hlen]
    rw [if_neg (by simp), if_neg (Nat.not_lt.mpr h), if_neg (by omega)]
    simp

/-- C6 witness: the round-trip theorem at the concrete response-type frame
with payload `[0xDE, 0xAD, 0xBE, 0xEF]`. -/
theorem frame_roundtrip_witness :
    [222, 173, 190, 239].length ≤ MaxMessageSize ∧
    ∃ e, EncodeMessage MessageTypeResponse [222, 173, 190, 239] = some e ∧
      DecodeMessage e = .ok ({ version := ProtocolVersion, msgType := MessageTypeResponse,
                               length := 4, data := [222, 173, 190, 239] }, []) :=
  ⟨by decide, frame_roundtrip MessageTypeResponse [222, 173, 190, 239] (by decide)⟩

/-- C7: the reader contract of `DecodeMessage`.  A stream shorter than the
8-byte header fails with the short-header error; given a full header, a
version byte other than 1 fails with the unsupported-version error; with
version 1, a length field above `MAX_FRAME` fails with the oversize error
no matter what follows the header (in particular before any payload is
read); otherwise, if at least `length` payload bytes are available the
decoder succeeds consuming exactly `8 + length` bytes, and if fewer are
available it fails with the short-data error. -/
theorem decode_reader_contract (input : List Nat) :
    (input.length < HeaderSize → DecodeMessage input = .error .shortHeader) ∧
    (∀ b0 b1 b2 b3 b4 b5 b6 b7 rest,
      input = b0 :: b1 :: b2 :: b3 :: b4 :: b5 :: b6 :: b7 :: rest →
      (b0 ≠ ProtocolVersion → DecodeMessage input = .error (.unsupportedVersion b0)) ∧
      (b0 = ProtocolVersion → MaxMessageSize < getUint32BE b2 b3 b4 b5 →
        DecodeMessage input = .error (.oversize (getUint32BE b2 b3 b4 b5))) ∧
      (b0 = ProtocolVersion → getUint32BE b2 b3 b4 b5 ≤ MaxMessageSize →
        (rest.length < getUint32BE b2 b3 b4 b5 →
          DecodeMessage input = .error .shortData) ∧
        (getUint32BE b2 b3 b4 b5 ≤ rest.length →
          DecodeMessage input =
            .ok ({ version := b0, msgType := b1, length := getUint32BE b2 b3 b4 b5,
                   data := rest.take (getUint32BE b2 b3 b4 b5) },
                 rest.drop (getUint32BE b2 b3 b4 b5))))) := by
  constructor
  · intro hshort
    rcases input with _ | ⟨b0, input⟩
    · rfl
    rcases input with _ | ⟨b1, input⟩
    · rfl
    rcases input with _ | ⟨b2, input⟩
    · rfl
    rcases input with _ | ⟨b3, input⟩
    · rfl
    rcases input with _ | ⟨b4, input⟩
    · rfl
    rcases input with _ | ⟨b5, input⟩
    · rfl
    rcases input with _ | ⟨b6, input⟩
    · rfl
    rcases input with _ | ⟨b7, input⟩
    · rfl
    simp only [HeaderSize, List.length_cons] at hshort
    omega
  · intro b0 b1 b2 b3 b4 b5 b6 b7 rest heq
    subst heq
    refine ⟨?_, ?_, ?_⟩
    · intro hv
      simp only [DecodeMessage]
      rw [if_pos hv]
    · intro hv hover
      simp only [DecodeMessage]
      rw [if_neg (by simp [hv]), if_pos hover]
    · intro hv hle
      constructor
      · intro hshortData
        simp only [DecodeMessage]
        rw [if_neg (by simp [hv]), if_neg (Nat.not_lt.mpr hle), if_pos hshortData]
      · intro havail
        simp only [DecodeMessage]
        rw [if_neg (by simp [hv]), if_neg (Nat.not_lt.mpr hle),
            if_neg (Nat.not_lt.mpr havail)]

/-- C7 witness: the reader contract applied at four concrete streams, one
per branch: a 3-byte stream (short header), a version-2 header, a version-1
header whose length field is `0xFFFFFFFF` with no payload present, and a
complete version-1 frame carrying one payload byte. -/
theorem decode_reader_contract_witness :
    DecodeMessage [1, 2, 3] = .error .shortHeader ∧
    DecodeMessage [2, 1, 0, 0, 0, 0, 0, 0] = .error (.unsupportedVersion 2) ∧
    DecodeMessage [1, 1, 255, 255, 255, 255, 0, 0] = .error (.oversize 4294967295) ∧
    DecodeMessage [1, 2, 0, 0, 0, 1, 0, 0, 99] =
      .ok ({ version := 1, msgType := 2, length := 1, data := [99] }, []) := by
  refine ⟨(decode_reader_contract [1, 2, 3]).1 (by decide), ?_, ?_, ?_⟩
  · exact ((decode_reader_contract [2, 1, 0, 0, 0, 0, 0, 0]).2
      2 1 0 0 0 0 0 0 [] rfl).1 (by decide)
  · exact ((decode_reader_contract [1, 1, 255, 255, 255, 255, 0, 0]).2
      1 1 255 255 255 255 0 0 [] rfl).2.1 rfl (by decide)
  · exact ((decode_reader_contract [1, 2, 0, 0, 0, 1, 0, 0, 99]).2
      1 2 0 0 0 1 0 0 [99] rfl).2.2 rfl (by decide) |>.2 (by decide)

/-- Looking up a key after `removeKey` on that key finds nothing. -/
theorem lookup_removeKey {α : Type} (l : List (Nat × α)) (k : Nat) :
    (removeKey l k).lookup k = none := by
  induction l with
  | nil => rfl
  | cons hd tl ih =>
    obtain ⟨a, b⟩ := hd
    by_cases h : a = k
    · simpa [removeKey, List.filter_cons, h] using ih
    · have hba : (k == a) = false := beq_eq_false_iff_ne.mpr (Ne.symm h)
      simpa [removeKey, List.filter_cons, h, List.lookup, hba] using ih

/-- Unfolding `Unregister` when the port is registered. -/
theorem unregister_of_lookup_some (cm : ConnectionManager) (port : Nat) (conn : Socket)
    (h : cm.connections.lookup port = some conn) :
    Unregister cm port =
      { cm with connections := removeKey cm.connections port,
                connInfo := removeKey cm.connInfo port,
                closedSockets := conn :: cm.closedSockets } := by
  unfold Unregister
  rw [h]

/-- `SendData` on a registered socket whose write errors evaluates to the
`writeFailed` result paired with the evicted registry. -/
theorem sendData_writeFailed_eq (cm : ConnectionManager) (port now : Nat) (conn : Socket)
    (hl : GetConnection cm port = some conn) (hw : conn.writeOk = false) :
    SendData cm port now = (.writeFailed, Unregister (touchSent cm port now) port) := by
  unfold SendData
  rw [hl]
  show (if conn.writeOk = true then ((SendResult.ok, touchSent cm port now) : SendResult × ConnectionManager)
        else (SendResult.writeFailed, Unregister (touchSent cm port now) port)) =
       (SendResult.writeFailed, Unregister (touchSent cm port now) port)
  rw [hw]
  simp

/-- A `writeFailed` result implies a registered socket whose write errors. -/
theorem sendData_writeFailed_inv (cm : ConnectionManager) (port now : Nat)
    (h : (SendData cm port now).1 = .writeFailed) :
    ∃ conn, GetConnection cm port = some conn ∧ conn.writeOk = false := by
  unfold SendData at h
  cases hl : GetConnection cm port with
  | none =>
    rw [hl] at h
    exact absurd h (by simp)
  | some conn =>
    rw [hl] at h
    have h2 : (if conn.writeOk = true
          then ((SendResult.ok, touchSent cm port now) : SendResult × ConnectionManager)
          else (SendResult.writeFailed, Unregister (touchSent cm port now) port)).1 =
        SendResult.writeFailed := h
    by_cases hw : conn.writeOk
    · rw [hw] at h2
      exact absurd h2 (by simp)
    · exact ⟨conn, rfl, by simpa using hw⟩

/-- C5: eviction on write failure.  Whenever `SendData` returns
`writeFailed`, the entry for that port has been evicted before the call
returns — the socket that was registered there has been closed and both
map entries removed — so an immediately following `GetConnection`
(`lookup`) on the same port returns `none` (`Missing`). -/
theorem send_write_failure_evicts (cm : ConnectionManager) (port now : Nat)
    (h : (SendData cm port now).1 = .writeFailed) :
    GetConnection (SendData cm port now).2 port = none ∧
    (SendData cm port now).2.connInfo.lookup port = none ∧
    ∃ conn, GetConnection cm port = some conn ∧
      conn ∈ (SendData cm port now).2.closedSockets := by
  obtain ⟨conn, hl, hw⟩ := sendData_writeFailed_inv cm port now h
  have htouch : (touchSent cm port now).connections.lookup port = some conn := hl
  rw [sendData_writeFailed_eq cm port now conn hl hw,
      unregister_of_lookup_some _ _ _ htouch]
  exact ⟨lookup_removeKey _ _, lookup_removeKey _ _, conn, hl, List.mem_cons_self _ _⟩

/-- C5 witness: eviction at the concrete registry holding one socket on
port 9999 whose transport write fails. -/
theorem send_write_failure_evicts_witness :
    (SendData cmFailingWrite 9999 5).1 = .writeFailed ∧
    GetConnection (SendData cmFailingWrite 9999 5).2 9999 = none :=
  ⟨rfl, (send_write_failure_evicts cmFailingWrite 9999 5 rfl).1⟩

/-- C1 counterexample: a `pending` row whose `retry_count` equals the
configured ceiling satisfies the query's `WHERE` predicate and is
returned by `FetchPendingRequests`, although the spec's predicate
excludes it: the source query never mentions `retry_count`. -/
theorem claim_predicate_counterexample :
    eligibleForClaim poisonRow = true ∧
    specEligibleForClaim maxRetriesDefault poisonRow = false ∧
    poisonRow.retryCount ≥ maxRetriesDefault ∧
    FetchPendingRequests [poisonRow] 10 = [poisonRow] := by
  refine ⟨rfl, rfl, by decide, rfl⟩

/-- C1 (amended): the eligible-row predicate of `FetchPendingRequests` is
exactly `status = 'pending'` — every returned row is `pending`, and the
predicate is insensitive to `retry_count`, so rows at or above
`MAX_RETRIES` are not excluded. -/
theorem fetch_pending_predicate (table : List UnsendData) (limit : Nat) (r : UnsendData)
    (h : r ∈ FetchPendingRequests table limit) :
    r.status = .pending ∧ eligibleForClaim r = true ∧
    ∀ n : Int, eligibleForClaim { r with retryCount := n } = true := by
  have hf : r ∈ (sortByCreated table).filter eligibleForClaim :=
    List.mem_of_mem_take h
  have hel : eligibleForClaim r = true := (List.mem_filter.mp hf).2
  have hst : r.status = .pending := by
    simpa [eligibleForClaim] using hel
  exact ⟨hst, hel, fun n => by simpa [eligibleForClaim] using hst⟩

/-- C1 (amended) witness: the predicate theorem applied to the poison row
fetched from a one-row table. -/
theorem fetch_pending_predicate_witness :
    poisonRow ∈ FetchPendingRequests [poisonRow] 10 ∧
    poisonRow.status = .pending :=
  ⟨by decide, (fetch_pending_predicate [poisonRow] 10 poisonRow (by decide)).1⟩

/-- C10: `MarkAsSending` and `MarkAsComplete` (via `UpdateRequestStatus`
with a `nil` error message) write `NULL` into `last_error` — erasing any
error text a previous failed attempt recorded — and write only the
`status`, `updated_at` and `last_error` columns of the targeted row;
rows with a different `id` are untouched. -/
theorem mark_nil_clears_last_error (table : List UnsendData) (requestID : Int)
    (now : Nat) (i : Nat) (h : i < table.length) :
    (MarkAsSending table requestID now).length = table.length ∧
    (MarkAsComplete table requestID now).length = table.length ∧
    (table[i].id = requestID →
      (MarkAsSending table requestID now)[i]? =
        some { table[i] with status := .sending, updatedAt := now, lastError := none } ∧
      (MarkAsComplete table requestID now)[i]? =
        some { table[i] with status := .complete, updatedAt := now, lastError := none }) ∧
    (table[i].id ≠ requestID →
      (MarkAsSending table requestID now)[i]? = some table[i] ∧
      (MarkAsComplete table requestID now)[i]? = some table[i]) := by
  refine ⟨by simp [MarkAsSending, UpdateRequestStatus],
          by simp [MarkAsComplete, UpdateRequestStatus], ?_, ?_⟩
  · intro hid
    constructor
    · simp [MarkAsSending, UpdateRequestStatus, List.getElem?_map,
        List.getElem?_eq_getElem h, hid, updateRequestStatusRow]
    · simp [MarkAsComplete, UpdateRequestStatus, List.getElem?_map,
        List.getElem?_eq_getElem h, hid, updateRequestStatusRow]
  · intro hid
    constructor
    · simp [MarkAsSending, UpdateRequestStatus, List.getElem?_map,
        List.getElem?_eq_getElem h, hid]
    · simp [MarkAsComplete, UpdateRequestStatus, List.getElem?_map,
        List.getElem?_eq_getElem h, hid]

/-- C10 witness: marking row 7 as sending on a two-row table whose first
row carries a recorded error: the error text is erased on row 7 and row 8
is untouched. -/
theorem mark_nil_clears_last_error_witness :
    (MarkAsSending [poisonRow, { poisonRow with id := 8 }] 7 42).length = 2 ∧
    (MarkAsSending [poisonRow, { poisonRow with id := 8 }] 7 42)[0]? =
      some { poisonRow with status := .sending, updatedAt := 42, lastError := none } := by
  have h0 : (0 : Nat) < ([poisonRow, { poisonRow with id := 8 }] : List UnsendData).length := by
    simp
  have hmain := mark_nil_clears_last_error [poisonRow, { poisonRow with id := 8 }] 7 42 0 h0
  have hid : ([poisonRow, { poisonRow with id := 8 }] : List UnsendData)[0].id = 7 := rfl
  exact ⟨hmain.1, (hmain.2.2.1 hid).1⟩

/-- C8: backpressure.  On a running pool (not stopped, context not
cancelled) whose submission queue already holds `QUEUE_SIZE` jobs,
`Submit` takes the `default` arm of its select — no arm is ready, so it
returns the queue-full error immediately, without blocking and without
enqueuing the job (the pool state is unchanged), whichever way the
runtime would have resolved a choice. -/
theorem submit_full_queue_rejects (p : PoolState) (job : Int) (pickSend : Bool)
    (h1 : p.jobsClosed = false) (h2 : p.cancelled = false)
    (h3 : p.queueCap ≤ p.jobs.length) :
    Submit p job pickSend = (.queueFullErr, p) := by
  have hs : sendCaseReady p = false := by
    simp only [sendCaseReady, h1, Bool.false_or, decide_eq_false_iff_not]
    omega
  have hd : doneCaseReady p = false := h2
  simp [Submit, hs, hd]

/-- C8 witness: submitting to the concrete full pool (three jobs queued,
capacity three) is rejected with the pool unchanged. -/
theorem submit_full_queue_rejects_witness :
    Submit fullPool 99 true = (.queueFullErr, fullPool) ∧
    Submit fullPool 99 false = (.queueFullErr, fullPool) :=
  ⟨submit_full_queue_rejects fullPool 99 true rfl rfl (by decide),
   submit_full_queue_rejects fullPool 99 false rfl rfl (by decide)⟩

/-- C9 counterexample: after `Stop` (which cancels the context and closes
the jobs channel) both arms of `Submit`'s select are ready; when the
runtime picks the send arm, the send is on the closed `jobs` channel and
the call panics instead of returning an error. -/
theorem submit_after_stop_counterexample :
    (Submit (Stop fullPool) 99 true).1 = .panicked := rfl

/-- C9 (amended): after `Stop` has returned, `Submit` never enqueues the
job — but it is not guaranteed to return an error: depending on the
runtime's choice between the two ready select arms it either returns the
cancellation error or panics by sending on the closed jobs channel. -/
theorem submit_after_stop (p : PoolState) (job : Int) (pickSend : Bool) :
    ((Submit (Stop p) job pickSend).1 = .canceledErr ∨
     (Submit (Stop p) job pickSend).1 = .panicked) ∧
    (Submit (Stop p) job pickSend).2 = Stop p := by
  cases pickSend <;>
    simp [Submit, Stop, sendCaseReady, doneCaseReady]

/-- The retry loop past the last attempt index: the loop exits and the
last error is surfaced with the reported count `MaxRetries + 1`. -/
theorem sendRequestLoop_exit (mr rd : Nat) (oc : Nat → Except Nat Nat)
    (k lastErr : Nat) (hk : mr < k) :
    sendRequestLoop mr rd oc k lastErr =
      { attemptsMade := 0, delays := [], result := .error (mr + 1, lastErr) } := by
  rw [sendRequestLoop, if_pos hk]

/-- One failing iteration of the retry loop: wait (except before attempt
0), attempt, record the failure, continue with the next attempt. -/
theorem sendRequestLoop_step_error (mr rd : Nat) (oc : Nat → Except Nat Nat)
    (k lastErr errK : Nat) (hk : k ≤ mr) (ho : oc k = .error errK) :
    sendRequestLoop mr rd oc k lastErr =
      { attemptsMade := (sendRequestLoop mr rd oc (k + 1) errK).attemptsMade + 1,
        delays := (if k = 0 then [] else [rd * k]) ++
          (sendRequestLoop mr rd oc (k + 1) errK).delays,
        result := (sendRequestLoop mr rd oc (k + 1) errK).result } := by
  rw [sendRequestLoop, if_neg (by omega), ho]

/-- When every attempt fails, the retry loop started at attempt `k ≤ mr`
performs the remaining `mr + 1 - k` attempts, waits `rd * i` before each
attempt `i ≥ max 1 k`, and surfaces the error of the final attempt `mr`
with the reported count `mr + 1`. -/
theorem sendRequestLoop_all_fail (mr rd : Nat) (e : Nat → Nat) :
    ∀ n k lastErr, mr + 1 - k = n → k ≤ mr →
      sendRequestLoop mr rd (fun i => Except.error (e i)) k lastErr =
        { attemptsMade := mr + 1 - k,
          delays := (List.range' (max 1 k) (mr + 1 - max 1 k)).map (fun i => rd * i),
          result := .error (mr + 1, e mr) } := by
  intro n
  induction n with
  | zero =>
    intro k lastErr h hk
    omega
  | succ m ih =>
    intro k lastErr h hk
    rw [sendRequestLoop_step_error mr rd _ k lastErr (e k) hk rfl]
    by_cases hkm : k = mr
    · subst hkm
      rw [sendRequestLoop_exit k rd _ (k + 1) (e k) (by omega)]
      by_cases hk0 : k = 0
      · subst hk0
        simp
      · have h1k : max 1 k = k := by omega
        simp [hk0, h1k, show k + 1 - k = 1 by omega, List.range']
    · have hlt : k < mr := lt_of_le_of_ne hk hkm
      rw [ih (k + 1) (e k) (by omega) (by omega)]
      by_cases hk0 : k = 0
      · subst hk0
        simp
      · have h1k : max 1 k = k := by omega
        have h1k1 : max 1 (k + 1) = k + 1 := by omega
        have hcount : mr + 1 - k = (mr - k) + 1 := by omega
        have hcount1 : mr + 1 - (k + 1) = mr - k := by omega
        rw [h1k, h1k1, hcount, hcount1, List.range'_succ k (mr - k) 1]
        simp [hk0]

/-- C4 client half, at attempt 0: `MAX_RETRIES + 1` attempts in total,
delays `rd·1, …, rd·MAX_RETRIES`, and only the final attempt's error is
surfaced. -/
theorem sendRequest_all_fail (mr rd : Nat) (e : Nat → Nat) :
    SendRequest mr rd (fun i => Except.error (e i)) =
      { attemptsMade := mr + 1,
        delays := (List.range' 1 mr).map (fun i => rd * i),
        result := .error (mr + 1, e mr) } := by
  have h := sendRequestLoop_all_fail mr rd e (mr + 1) 0 0 (by omega) (by omega)
  simpa [SendRequest] using h

/-- Every row of `UpdateRequestStatus` comes from a row of the table with
the same `id`; the targeted rows carry the new status/error/timestamp
with `retry_count` (and every other column) untouched, the others are
unchanged. -/
theorem exists_src_of_mem_update {table : List UnsendData} {id : Int}
    {st : RequestStatus} {e : Option String} {now : Nat} {r : UnsendData}
    (h : r ∈ UpdateRequestStatus table id st e now) :
    ∃ r0, r0 ∈ table ∧ r.id = r0.id ∧
      (r0.id = id → r.status = st ∧ r.lastError = e ∧ r.updatedAt = now ∧
        r.retryCount = r0.retryCount) ∧
      (r0.id ≠ id → r = r0) := by
  obtain ⟨r0, hr0, heq⟩ := List.mem_map.mp h
  by_cases h0 : r0.id = id
  · rw [if_pos h0] at heq
    subst heq
    exact ⟨r0, hr0, rfl, fun _ => ⟨rfl, rfl, rfl, rfl⟩, fun hne => absurd h0 hne⟩
  · rw [if_neg h0] at heq
    subst heq
    exact ⟨r0, hr0, rfl, fun hc => absurd hc h0, fun _ => rfl⟩

/-- Every row of `IncrementRetryCount` comes from a row of the table with
the same `id`, status and error text; the targeted rows have
`retry_count` bumped by one, the others are unchanged. -/
theorem exists_src_of_mem_increment {table : List UnsendData} {id : Int}
    {now : Nat} {r : UnsendData}
    (h : r ∈ IncrementRetryCount table id now) :
    ∃ r0, r0 ∈ table ∧ r.id = r0.id ∧ r.status = r0.status ∧
      r.lastError = r0.lastError ∧
      (r0.id = id → r.retryCount = r0.retryCount + 1) ∧
      (r0.id ≠ id → r = r0) := by
  obtain ⟨r0, hr0, heq⟩ := List.mem_map.mp h
  by_cases h0 : r0.id = id
  · rw [if_pos h0] at heq
    subst heq
    exact ⟨r0, hr0, rfl, rfl, rfl, fun _ => rfl, fun hne => absurd h0 hne⟩
  · rw [if_neg h0] at heq
    subst heq
    exact ⟨r0, hr0, rfl, rfl, rfl, fun hc => absurd hc h0, fun _ => rfl⟩

/-- A targeted row's image belongs to the updated table. -/
theorem update_target_mem {table : List UnsendData} {id : Int}
    {st : RequestStatus} {e : Option String} {now : Nat} {r0 : UnsendData}
    (h : r0 ∈ table) (hid : r0.id = id) :
    updateRequestStatusRow r0 st e now ∈ UpdateRequestStatus table id st e now :=
  List.mem_map.mpr ⟨r0, h, by rw [if_pos hid]⟩

/-- A targeted row's image belongs to the retry-incremented table. -/
theorem increment_target_mem {table : List UnsendData} {id : Int} {now : Nat}
    {r0 : UnsendData} (h : r0 ∈ table) (hid : r0.id = id) :
    ({ r0 with retryCount := r0.retryCount + 1, updatedAt := now } : UnsendData) ∈
      IncrementRetryCount table id now :=
  List.mem_map.mpr ⟨r0, h, by rw [if_pos hid]⟩

/-- No row of `DeleteProcessedRequest table id` carries the deleted id. -/
theorem delete_removes {table : List UnsendData} {id : Int} {r : UnsendData}
    (h : r ∈ DeleteProcessedRequest table id) : r.id ≠ id := by
  have h2 := (List.mem_filter.mp h).2
  simpa using h2

/-- The failure path of the processor, on the table: every row with the
request's id ends `failed` carrying the step's error text with its retry
count incremented exactly once, and the failed image of every such row is
present. -/
theorem failed_table_spec (table : List UnsendData) (id : Int) (msg : String) (now : Nat) :
    (∀ r ∈ IncrementRetryCount (MarkAsFailed (MarkAsSending table id now) id msg now) id now,
       r.id = id → r.status = .failed ∧ r.lastError = some msg) ∧
    (∀ r0 ∈ table, r0.id = id →
       ({ r0 with
            status := .failed, updatedAt := now, lastError := some msg,
            retryCount := r0.retryCount + 1 } : UnsendData) ∈
         IncrementRetryCount (MarkAsFailed (MarkAsSending table id now) id msg now) id now) := by
  constructor
  · intro r hr hid
    obtain ⟨r2, hr2, hid2, hst2, hle2, _, _⟩ := exists_src_of_mem_increment hr
    have h2id : r2.id = id := by rw [← hid2]; exact hid
    obtain ⟨r1, _, hid1, htgt, _⟩ := exists_src_of_mem_update hr2
    have h1id : r1.id = id := by rw [← hid1]; exact h2id
    obtain ⟨hstf, hlef, _, _⟩ := htgt h1id
    exact ⟨hst2.trans hstf, hle2.trans hlef⟩
  · intro r0 h0 hid
    have m1 : updateRequestStatusRow r0 .sending none now ∈ MarkAsSending table id now :=
      update_target_mem h0 hid
    have m2 : updateRequestStatusRow (updateRequestStatusRow r0 .sending none now)
        .failed (some msg) now ∈
        MarkAsFailed (MarkAsSending table id now) id msg now :=
      update_target_mem m1 hid
    have m3 := @increment_target_mem
      (MarkAsFailed (MarkAsSending table id now) id msg now) id now
      (updateRequestStatusRow (updateRequestStatusRow r0 .sending none now)
        .failed (some msg) now) m2 hid
    simpa [updateRequestStatusRow] using m3

/-- `failWith` under succeeding failure-path writes: the result is
unsuccessful and the table effect is mark-failed followed by
increment-retry. -/
theorem failWith_spec (o : StepOutcomes) (req : UnsendData) (msg : String)
    (now : Nat) (s : DbState)
    (h2 : o.markFailedOk = true) (h3 : o.incrementRetryOk = true) :
    (failWith o req msg now s).1.success = false ∧
    (failWith o req msg now s).1.errMsg = some msg ∧
    (failWith o req msg now s).2.table =
      IncrementRetryCount (MarkAsFailed s.table req.id msg now) req.id now ∧
    (failWith o req msg now s).2.markFailedAttempts = s.markFailedAttempts + 1 ∧
    (failWith o req msg now s).2.incrementAttempts = s.incrementAttempts + 1 := by
  simp [failWith, handleError, h2, h3]

/-- Case split of a `Process` run whose step-1 write succeeded and whose
failure-path writes succeed: either the run succeeds and the table
effect is mark-sending, then conditionally mark-complete, then
conditionally delete; or the run fails with some step's error text and
the table effect is mark-sending, mark-failed, increment-retry. -/
theorem process_cases (o : StepOutcomes) (req : UnsendData) (now : Nat) (s : DbState)
    (h1 : o.markSendingOk = true) (h2 : o.markFailedOk = true)
    (h3 : o.incrementRetryOk = true) :
    ((Process o req now s).1.success = true ∧
     (Process o req now s).2.table =
       (if o.deleteOk then
          DeleteProcessedRequest
            (if o.markCompleteOk then
               MarkAsComplete (MarkAsSending s.table req.id now) req.id now
             else MarkAsSending s.table req.id now) req.id
        else if o.markCompleteOk then
          MarkAsComplete (MarkAsSending s.table req.id now) req.id now
        else MarkAsSending s.table req.id now)) ∨
    ((Process o req now s).1.success = false ∧
     ∃ msg, (Process o req now s).1.errMsg = some msg ∧
       (Process o req now s).2.table =
         IncrementRetryCount
           (MarkAsFailed (MarkAsSending s.table req.id now) req.id msg now) req.id now) := by
  cases hva : o.validateOk with
  | false =>
    refine Or.inr ?_
    have hw := failWith_spec o req "invalid binary data" now
      { s with table := MarkAsSending s.table req.id now } h2 h3
    simp only [Process, h1, hva]
    exact ⟨by simpa using hw.1, "invalid binary data", by simpa using hw.2.1,
      by simpa using hw.2.2.1⟩
  | true =>
  cases hta : o.toApiOk with
  | false =>
    refine Or.inr ?_
    have hw := failWith_spec o req "failed to convert to API request" now
      { s with table := MarkAsSending s.table req.id now } h2 h3
    simp only [Process, h1, hva, hta]
    exact ⟨by simpa using hw.1, "failed to convert to API request", by simpa using hw.2.1,
      by simpa using hw.2.2.1⟩
  | true =>
  cases hap : o.apiSendOk with
  | false =>
    refine Or.inr ?_
    have hw := failWith_spec o req "API request failed" now
      { s with table := MarkAsSending s.table req.id now } h2 h3
    simp only [Process, h1, hva, hta, hap]
    exact ⟨by simpa using hw.1, "API request failed", by simpa using hw.2.1,
      by simpa using hw.2.2.1⟩
  | true =>
  cases hvr : o.validateRespOk with
  | false =>
    refine Or.inr ?_
    have hw := failWith_spec o req "invalid API response" now
      { s with table := MarkAsSending s.table req.id now } h2 h3
    simp only [Process, h1, hva, hta, hap, hvr]
    exact ⟨by simpa using hw.1, "invalid API response", by simpa using hw.2.1,
      by simpa using hw.2.2.1⟩
  | true =>
  cases htb : o.toBinaryOk with
  | false =>
    refine Or.inr ?_
    simp only [Process, h1, hva, hta, hap, hvr, htb]
    cases hins : o.insertResponseOk with
    | false =>
      have hw := failWith_spec o req "failed to convert response to binary" now
        { s with table := MarkAsSending s.table req.id now } h2 h3
      exact ⟨by simpa using hw.1, "failed to convert response to binary",
        by simpa using hw.2.1, by simpa using hw.2.2.1⟩
    | true =>
      have hw := failWith_spec o req "failed to convert response to binary" now
        { s with
            table := MarkAsSending s.table req.id now,
            responseInserts := s.responseInserts + 1 } h2 h3
      exact ⟨by simpa using hw.1, "failed to convert response to binary",
        by simpa using hw.2.1, by simpa using hw.2.2.1⟩
  | true =>
  cases hsc : o.sendClientOk with
  | false =>
    refine Or.inr ?_
    simp only [Process, h1, hva, hta, hap, hvr, htb, hsc]
    cases hins : o.insertResponseOk with
    | false =>
      have hw := failWith_spec o req "failed to send response to client" now
        { s with table := MarkAsSending s.table req.id now } h2 h3
      exact ⟨by simpa using hw.1, "failed to send response to client",
        by simpa using hw.2.1, by simpa using hw.2.2.1⟩
    | true =>
      have hw := failWith_spec o req "failed to send response to client" now
        { s with
            table := MarkAsSending s.table req.id now,
            responseInserts := s.responseInserts + 1 } h2 h3
      exact ⟨by simpa using hw.1, "failed to send response to client",
        by simpa using hw.2.1, by simpa using hw.2.2.1⟩
  | true =>
  refine Or.inl ?_
  simp only [Process, h1, hva, hta, hap, hvr, htb, hsc]
  cases hins : o.insertResponseOk <;> cases hmc : o.markCompleteOk <;>
    cases hde : o.deleteOk <;> simp [hins, hmc, hde]

/-- A row of an updated table that carries the targeted id has the
written status. -/
theorem status_of_mem_update {table : List UnsendData} {id : Int}
    {st : RequestStatus} {e : Option String} {now : Nat} {r : UnsendData}
    (h : r ∈ UpdateRequestStatus table id st e now) (hid : r.id = id) :
    r.status = st := by
  obtain ⟨r1, _, hid1, htgt, _⟩ := exists_src_of_mem_update h
  exact (htgt (by rw [← hid1]; exact hid)).1

/-- C2 counterexample to the claim as stated: a run in which steps 1–8
all succeed but both the step-9 mark-complete write and the step-10
delete fail (both swallowed) returns a successful result with the row
still in status `sending` — the failure handler never ran even though
its writes would have succeeded. -/
theorem process_stuck_sending_counterexample :
    (Process oCleanupFails pendingRow 1 dbDemo).1.success = true ∧
    (Process oCleanupFails pendingRow 1 dbDemo).2.table =
      [{ pendingRow with status := .sending, updatedAt := 1 }] ∧
    (Process oCleanupFails pendingRow 1 dbDemo).2.markFailedAttempts = 0 ∧
    oCleanupFails.markSendingOk = true ∧
    oCleanupFails.markFailedOk = true ∧
    oCleanupFails.incrementRetryOk = true :=
  ⟨rfl, rfl, rfl, rfl, rfl, rfl⟩

/-- C2 (amended): for a run whose step-1 mark-sending write succeeded and
whose failure-path writes succeed, if additionally at least one of the
step-9/step-10 cleanup writes succeeds, then the row is never left in
`sending`: any error in steps 2–5, 7–8 leaves every row carrying the
request's id `failed` with the error text recorded and `retry_count`
incremented by one, while success leaves the row deleted (or, when only
the delete failed, in status `complete`). -/
theorem process_row_not_left_sending (o : StepOutcomes) (req : UnsendData)
    (now : Nat) (s : DbState)
    (h1 : o.markSendingOk = true) (h2 : o.markFailedOk = true)
    (h3 : o.incrementRetryOk = true)
    (h4 : o.markCompleteOk = true ∨ o.deleteOk = true) :
    ((Process o req now s).1.success = false →
       ∀ r ∈ (Process o req now s).2.table, r.id = req.id →
         r.status = .failed ∧ r.lastError ≠ none) ∧
    ((Process o req now s).1.success = false →
       ∀ r0 ∈ s.table, r0.id = req.id → ∃ msg,
         ({ r0 with
              status := .failed, updatedAt := now, lastError := some msg,
              retryCount := r0.retryCount + 1 } : UnsendData) ∈
           (Process o req now s).2.table) ∧
    ((Process o req now s).1.success = true →
       (o.deleteOk = true → ∀ r ∈ (Process o req now s).2.table, r.id ≠ req.id) ∧
       (o.deleteOk = false → ∀ r ∈ (Process o req now s).2.table, r.id = req.id →
          r.status = .complete)) ∧
    (∀ r ∈ (Process o req now s).2.table, r.id = req.id → r.status ≠ .sending) := by
  rcases process_cases o req now s h1 h2 h3 with ⟨hsucc, htab⟩ | ⟨hfail, msg, _, htab⟩
  · have hcompl : o.deleteOk = false →
        ∀ r ∈ (Process o req now s).2.table, r.id = req.id → r.status = .complete := by
      intro hdel r hr hid
      have hmc : o.markCompleteOk = true := by
        rcases h4 with h | h
        · exact h
        · rw [h] at hdel
          exact absurd hdel (by simp)
      rw [htab] at hr
      rw [hdel, hmc] at hr
      simp only [if_neg, if_pos] at hr
      have hr2 : r ∈ MarkAsComplete (MarkAsSending s.table req.id now) req.id now := by
        simpa using hr
      exact status_of_mem_update hr2 hid
    have hgone : o.deleteOk = true →
        ∀ r ∈ (Process o req now s).2.table, r.id ≠ req.id := by
      intro hdel r hr
      rw [htab, hdel] at hr
      have hr2 : r ∈ DeleteProcessedRequest
          (if o.markCompleteOk then
             MarkAsComplete (MarkAsSending s.table req.id now) req.id now
           else MarkAsSending s.table req.id now) req.id := by
        simpa using hr
      exact delete_removes hr2
    refine ⟨?_, ?_, fun _ => ⟨hgone, hcompl⟩, ?_⟩
    · intro hc
      rw [hsucc] at hc
      exact absurd hc (by simp)
    · intro hc
      rw [hsucc] at hc
      exact absurd hc (by simp)
    · intro r hr hid
      cases hdel : o.deleteOk with
      | true =>
        exact absurd hid (hgone hdel r hr)
      | false =>
        rw [hcompl hdel r hr hid]
        simp
  · have hspec := failed_table_spec s.table req.id msg now
    refine ⟨?_, ?_, ?_, ?_⟩
    · intro _ r hr hid
      rw [htab] at hr
      obtain ⟨hstf, hlef⟩ := hspec.1 r hr hid
      refine ⟨hstf, ?_⟩
      rw [hlef]
      simp
    · intro _ r0 h0 hid
      refine ⟨msg, ?_⟩
      rw [htab]
      exact hspec.2 r0 h0 hid
    · intro hc
      rw [hfail] at hc
      exact absurd hc (by simp)
    · intro r hr hid
      rw [htab] at hr
      rw [(hspec.1 r hr hid).1]
      simp

/-- C2 (amended) witness: the validation-failure run on the concrete
one-row database leaves the row `failed` with the step's error text,
retry count 1. -/
theorem process_row_not_left_sending_witness :
    (Process oValidateFails pendingRow 1 dbDemo).1.success = false ∧
    ({ pendingRow with
         status := .failed, updatedAt := 1,
         lastError := some "invalid binary data",
         retryCount := 1 } : UnsendData).status = .failed ∧
    ({ pendingRow with
         status := .failed, updatedAt := 1,
         lastError := some "invalid binary data",
         retryCount := 1 } : UnsendData).lastError ≠ none := by
  have h := process_row_not_left_sending oValidateFails pendingRow 1 dbDemo
    rfl rfl rfl (Or.inl rfl)
  have hmem := h.1 rfl
    ({ pendingRow with
         status := .failed, updatedAt := 1,
         lastError := some "invalid binary data",
         retryCount := 1 } : UnsendData) (by decide) rfl
  exact ⟨rfl, hmem.1, hmem.2⟩

/-- C3: when steps 1–5, 7 and 8 succeed, `Process` returns a successful
result whatever the step-6 response insert, step-9 mark-complete and
step-10 delete did: those database errors are swallowed, the failure
handler is never invoked (both of its write counters are unchanged) and
no row carrying the request's id is marked `failed`. -/
theorem process_noncritical_swallowed (o : StepOutcomes) (req : UnsendData)
    (now : Nat) (s : DbState)
    (h1 : o.markSendingOk = true) (h2 : o.validateOk = true) (h3 : o.toApiOk = true)
    (h4 : o.apiSendOk = true) (h5 : o.validateRespOk = true) (h6 : o.toBinaryOk = true)
    (h7 : o.sendClientOk = true) :
    (Process o req now s).1.success = true ∧
    (Process o req now s).1.errMsg = none ∧
    (Process o req now s).2.markFailedAttempts = s.markFailedAttempts ∧
    (Process o req now s).2.incrementAttempts = s.incrementAttempts ∧
    (∀ r ∈ (Process o req now s).2.table, r.id = req.id → r.status ≠ .failed) := by
  simp only [Process, h1, h2, h3, h4, h5, h6, h7]
  cases hins : o.insertResponseOk <;> cases hmc : o.markCompleteOk <;>
    cases hde : o.deleteOk <;>
    refine ⟨rfl, rfl, rfl, rfl, ?_⟩ <;> intro r hr hid
  case false.false.false | true.false.false =>
    have hr2 : r ∈ MarkAsSending s.table req.id now := by simpa using hr
    rw [status_of_mem_update hr2 hid]
    simp
  case false.false.true | true.false.true =>
    have hr2 : r ∈ DeleteProcessedRequest (MarkAsSending s.table req.id now) req.id := by
      simpa using hr
    exact absurd hid (delete_removes hr2)
  case false.true.false | true.true.false =>
    have hr2 : r ∈ MarkAsComplete (MarkAsSending s.table req.id now) req.id now := by
      simpa using hr
    rw [status_of_mem_update hr2 hid]
    simp
  case false.true.true | true.true.true =>
    have hr2 : r ∈ DeleteProcessedRequest
        (MarkAsComplete (MarkAsSending s.table req.id now) req.id now) req.id := by
      simpa using hr
    exact absurd hid (delete_removes hr2)

/-- C3 witness: the run in which all three non-critical writes fail
still returns success with the failure counters untouched. -/
theorem process_noncritical_swallowed_witness :
    (Process { allOk with
        insertResponseOk := false, markCompleteOk := false, deleteOk := false }
      pendingRow 1 dbDemo).1.success = true ∧
    (Process { allOk with
        insertResponseOk := false, markCompleteOk := false, deleteOk := false }
      pendingRow 1 dbDemo).2.markFailedAttempts = 0 :=
  ⟨(process_noncritical_swallowed { allOk with
        insertResponseOk := false, markCompleteOk := false, deleteOk := false }
      pendingRow 1 dbDemo rfl rfl rfl rfl rfl rfl rfl).1,
   (process_noncritical_swallowed { allOk with
        insertResponseOk := false, markCompleteOk := false, deleteOk := false }
      pendingRow 1 dbDemo rfl rfl rfl rfl rfl rfl rfl).2.2.1⟩

/-- C4: when every upstream attempt fails, the client performs exactly
`MAX_RETRIES + 1` attempts with linear delays `retry_delay × attempt`
(attempts `1 … MAX_RETRIES`) and surfaces only the final attempt's
error; the processor then runs the failure handler exactly once — one
mark-failed write, one retry-count increment — so every row carrying the
request's id ends `failed` with `retry_count` bumped by exactly 1. -/
theorem upstream_retry_single_failure (mr rd : Nat) (e : Nat → Nat)
    (o : StepOutcomes) (req : UnsendData) (now : Nat) (s : DbState)
    (h1 : o.markSendingOk = true) (h2 : o.validateOk = true) (h3 : o.toApiOk = true)
    (h4 : o.apiSendOk = false) (h5 : o.markFailedOk = true)
    (h6 : o.incrementRetryOk = true) :
    SendRequest mr rd (fun i => Except.error (e i)) =
      { attemptsMade := mr + 1,
        delays := (List.range' 1 mr).map (fun i => rd * i),
        result := .error (mr + 1, e mr) } ∧
    (Process o req now s).1.success = false ∧
    (Process o req now s).1.errMsg = some "API request failed" ∧
    (Process o req now s).2.markFailedAttempts = s.markFailedAttempts + 1 ∧
    (Process o req now s).2.incrementAttempts = s.incrementAttempts + 1 ∧
    (∀ r0 ∈ s.table, r0.id = req.id →
      ({ r0 with
           status := .failed, updatedAt := now,
           lastError := some "API request failed",
           retryCount := r0.retryCount + 1 } : UnsendData) ∈
        (Process o req now s).2.table) := by
  refine ⟨sendRequest_all_fail mr rd e, ?_, ?_, ?_, ?_, ?_⟩ <;>
    simp only [Process, h1, h2, h3, h4, failWith, handleError, h5, h6]
  · rfl
  · rfl
  · rfl
  · rfl
  · intro r0 h0 hid
    have hspec := (failed_table_spec s.table req.id "API request failed" now).2
    simpa using hspec r0 h0 hid

/-- C4 witness: with the default configuration values (3 retries, delay
1000) and an upstream that always answers 503, the client makes 4
attempts with delays 1000, 2000, 3000; the processor's failure handler
runs exactly once on the concrete one-row database. -/
theorem upstream_retry_single_failure_witness :
    (SendRequest 3 1000 (fun i => Except.error ((fun _ => 503) i))).attemptsMade = 4 ∧
    (SendRequest 3 1000 (fun i => Except.error ((fun _ => 503) i))).delays =
      [1000, 2000, 3000] ∧
    (Process oApiFails pendingRow 1 dbDemo).2.markFailedAttempts = 1 ∧
    (Process oApiFails pendingRow 1 dbDemo).2.incrementAttempts = 1 := by
  have h := upstream_retry_single_failure 3 1000 (fun _ => 503) oApiFails pendingRow 1
    dbDemo rfl rfl rfl rfl rfl rfl
  refine ⟨?_, ?_, ?_, ?_⟩
  · rw [h.1]
  · rw [h.1]
    rfl
  · rw [h.2.2.2.1]
    rfl
  · rw [h.2.2.2.2.1]
    rfl

end SocketToApi
